import Mathlib

/-!
Verification of the donut media gateway (Go sources under internal/) against its
natural-language specification.  The development shallowly embeds the data model
and the algorithms of:

* `internal/entities/entities.go` — request validation, recipe/appetizer data,
  codec-context mutators;
* `internal/controllers/engine/donut_engine_controller.go` — `Appetizer` and
  `RecipeFor`;
* the libav streamer (prober/streamer pair in
  `internal/controllers/probers/libav_ffmpeg.go`) — SRT URL rewriting and option
  assembly of `prepareInput`, encoder configuration of `prepareOutput`, the run
  loop of `Stream`, `applyBitStreamFilter`, the bypass branch of `processPacket`,
  the timestamp rescale `av_packet_rescale_ts` / `av_rescale_q`, and the
  duration heuristics `defineAudioDuration` / `defineVideoDuration`.

Go strings are modelled as `List Char`; Go's `int64` timestamps as `Int`
(overflow-free in all modelled computations, which libav guards itself); the
two `float64` duration-tracking fields of `LibAVFFmpegStreamer` as `Int`
(they only ever hold integral DTS values and differences, which `float64`
represents exactly below `2^53`); durations as exact rationals measured in
seconds (the Go code multiplies by `time.Second` and truncates to integer
nanoseconds).  Callbacks and libav calls whose results arrive from outside the
program (packet reads, decoder/encoder/bit-stream-filter outcomes) are oracles
supplied as explicit inputs to the loop model.
-/

namespace Donut

/-! ## Strings as lists of characters (Go `strings` helpers) -/

abbrev Str := List Char

/-- Go `strings.ToLower` on one ASCII character (`unicode.ToLower` restricted
to the ASCII range, which is all the donut code feeds it). -/
def lowerChar (c : Char) : Char :=
  if 65 ≤ c.toNat ∧ c.toNat ≤ 90 then Char.ofNat (c.toNat + 32) else c

/-- Go `strings.ToLower`. -/
def strLower (s : Str) : Str := s.map lowerChar

/-- Returns `true` when the first list is a leading segment of the second. -/
def isLeadingSegment : Str → Str → Bool
  | [], _ => true
  | _ :: _, [] => false
  | a :: as, b :: bs => a = b && isLeadingSegment as bs

/-- Go `strings.Contains hay needle`. -/
def containsSub : Str → Str → Bool
  | hay, needle =>
    if isLeadingSegment needle hay then true
    else
      match hay with
      | [] => false
      | _ :: t => containsSub t needle

/-- Go `strings.Contains(strings.ToLower(s), sub)` — the idiom used throughout
the donut code for URL classification. -/
def lowerContains (s sub : Str) : Bool := containsSub (strLower s) sub

/-- Worker for `splitOnL`; the fuel argument is `s.length + 1`, enough for any
non-empty separator (every step consumes at least one character of `s`), so the
fuel-exhausted fallback is unreachable in the modelled uses. -/
def splitGo (sep : Str) : Nat → Str → Str → List Str
  | 0, s, acc => [acc.reverse ++ s]
  | fuel + 1, s, acc =>
    match s with
    | [] => [acc.reverse]
    | c :: rest =>
      if isLeadingSegment sep s then
        acc.reverse :: splitGo sep fuel (s.drop sep.length) []
      else splitGo sep fuel rest (c :: acc)

/-- Go `strings.Split s sep` for a non-empty separator: the list of substrings
between non-overlapping left-to-right occurrences of `sep`. -/
def splitOnL (s sep : Str) : List Str := splitGo sep (s.length + 1) s []

/-! ## Entities (`internal/entities/entities.go`) -/

/-- The error values of `internal/entities/errors.go` plus the sentinel errors
the run loop compares against (`astiav.ErrEof`, `io.EOF`, `context.Canceled`,
`context.DeadlineExceeded`, `io.ErrClosedPipe`) and the opaque processing
errors it can only propagate.  `generic n` stands for any other distinct error
value. -/
inductive Err
  | missingParamsOffer
  | missingStreamID
  | missingStreamURL
  | unsupportedStreamURL
  | missingProber
  | missingStreamer
  | missingCompatibleStreams
  | eofAV
  | eofStdlib
  | contextCanceled
  | deadlineExceeded
  | closedPipe
  | codecMissing
  | encoderNotFound
  | sendPacketFailed
  | receiveFrameFailed
  | filterFailed
  | encodeFailed
  | rtpMarshalFailed
  | readFrameFailed
  | openInputFailed
  | findStreamInfoFailed
  | formatContextNil
  | generic (n : Nat)
  deriving DecidableEq, Repr

/-- Type `entities.Codec`. -/
inductive Codec
  | unknownCodec | h264 | h265 | vp8 | vp9 | av1 | aac | opus
  deriving DecidableEq, Repr

/-- Type `entities.MediaType`. -/
inductive MediaType
  | unknownType | video | audio
  deriving DecidableEq, Repr

/-- Type `entities.DonutMediaTaskAction`. -/
inductive Action
  | transcode | bypass
  deriving DecidableEq, Repr

/-- Type `astiav.Rational` (a libav `AVRational`). -/
structure AVRational where
  num : Int
  den : Int
  deriving DecidableEq, Repr

/-- Type `entities.RequestParams` (the `Offer` field plays no role in the claims
about validation and ingest and is omitted). -/
structure RequestParams where
  streamURL : Str
  streamID : Str
  deriving DecidableEq, Repr

/-- Method `entities.RequestParams.Valid`, with the Go nil-pointer receiver modelled
as `none`.  The Go method reads but never writes `p`, so the model is a pure
function of the request. -/
def validRequest : Option RequestParams → Option Err
  | none => some .missingParamsOffer
  | some p =>
    if p.streamID = [] then some .missingStreamID
    else if p.streamURL = [] then some .missingStreamURL
    else
      let isRTMP := lowerContains p.streamURL "rtmp".toList
      let isSRT := lowerContains p.streamURL "srt".toList
      if !(isRTMP || isSRT) then some .unsupportedStreamURL
      else none

/-- The sample formats named by `entities.SetSampleFormat` (`s16` is also its
fallback for every unrecognized name). -/
inductive SampleFormat
  | fltp | flt | s16 | other (n : Nat)
  deriving DecidableEq, Repr

/-- The string-to-format mapping inside `entities.SetSampleFormat`. -/
def sampleFormatOfString (f : Str) : SampleFormat :=
  if f = "fltp".toList then .fltp
  else if f = "flt".toList then .flt
  else .s16

/-- The observable state of an `astiav.CodecContext` touched by the donut code
(channel layouts and pixel formats are opaque identifiers). -/
structure CodecContext where
  mediaType : MediaType
  sampleRate : Int
  bitRate : Int
  sampleFormat : SampleFormat
  channels : Int
  channelLayout : Nat
  timeBase : AVRational
  pixelFormat : Int
  sampleAspect : AVRational
  height : Int
  width : Int
  profile : Int
  gopSize : Int
  flagGlobalHeader : Bool
  framerate : AVRational
  deriving DecidableEq, Repr

/-- The `entities.LibAVOptionsCodecContext` closures, reified: each constructor is
one of the mutator builders of `entities.go`. -/
inductive LibAVOptionCC
  | setSampleRate (n : Int)
  | setTimeBase (num den : Int)
  | setBitRate (n : Int)
  | setBaselineProfile
  | setGopSize (n : Int)
  | setSampleFormat (f : Str)
  deriving DecidableEq, Repr

/-- Constant `FF_PROFILE_H264_BASELINE`. -/
def profileH264Baseline : Int := 66

/-- Running one `entities.LibAVOptionsCodecContext` mutator on a codec
context. -/
def applyOpt (c : CodecContext) : LibAVOptionCC → CodecContext
  | .setSampleRate n => { c with sampleRate := n }
  | .setTimeBase n d => { c with timeBase := ⟨n, d⟩ }
  | .setBitRate n => { c with bitRate := n }
  | .setBaselineProfile => { c with profile := profileH264Baseline }
  | .setGopSize n => { c with gopSize := n }
  | .setSampleFormat f => { c with sampleFormat := sampleFormatOfString f }

/-- Type `entities.DonutMediaTask`. -/
structure DonutMediaTask where
  action : Action
  codec : Codec
  codecContextOptions : List LibAVOptionCC
  donutBitStreamFilter : Option Str
  donutStreamFilter : Option Str
  deriving DecidableEq, Repr

/-- Type `entities.DonutAppetizer`; `options` is the Go map written as the list of
its key/value pairs in the order the source constructs them (all keys
distinct). -/
structure DonutAppetizer where
  url : Str
  format : Str
  options : List (Str × Str)
  deriving DecidableEq, Repr

/-- Type `entities.DonutRecipe`. -/
structure DonutRecipe where
  input : DonutAppetizer
  video : DonutMediaTask
  audio : DonutMediaTask
  deriving DecidableEq, Repr

/-- Lookup in an option list (the read side of a Go map / libav dictionary
whose keys are distinct). -/
def optGet (d : List (Str × Str)) (k : Str) : Option Str :=
  (d.find? (fun kv => kv.1 = k)).map (·.2)

/-- Operation `astiav.Dictionary.Set` with flag `0`: replace the value under an existing
key, else append the pair. -/
def dictSet (d : List (Str × Str)) (k v : Str) : List (Str × Str) :=
  if d.any (fun kv => kv.1 = k) then
    d.map (fun kv => if kv.1 = k then (k, v) else kv)
  else d ++ [(k, v)]

/-- Populating a fresh `astiav.Dictionary` from the appetizer's option map
(the loop `for k, v := range req.Options { inputOptions.Set(k, v, 0) }`; keys
are distinct, so the map's iteration order does not affect the result read
through `optGet`). -/
def dictOfOptions (opts : List (Str × Str)) : List (Str × Str) :=
  opts.foldl (fun d kv => dictSet d kv.1 kv.2) []

/-! ## Engine controller (`donut_engine_controller.go`) -/

/-- Type `entities.Stream` — one probed or offered stream. -/
structure StreamEnt where
  codec : Codec
  type : MediaType
  id : Nat
  index : Nat
  deriving DecidableEq, Repr

/-- Type `entities.StreamInfo`. -/
structure StreamInfo where
  streams : List StreamEnt
  deriving DecidableEq, Repr

/-- Method `donutEngine.Appetizer`. -/
def appetizer (req : RequestParams) : Except Err DonutAppetizer :=
  let isRTMP := lowerContains req.streamURL "rtmp".toList
  let isSRT := lowerContains req.streamURL "srt".toList
  if isRTMP then
    .ok { url := req.streamURL ++ "/".toList ++ req.streamID
          format := "flv".toList
          options := [("rtmp_live".toList, "live".toList)] }
  else if isSRT then
    .ok { url := req.streamURL
          format := "mpegts".toList
          options := [("srt_streamid".toList, req.streamID),
                      ("transtype".toList, "live".toList),
                      ("smoother".toList, "live".toList)] }
  else .error .unsupportedStreamURL

/-- Method `donutEngine.RecipeFor` — note that the Go method never reads `server` or
`client`; the parameters are kept to mirror its signature. -/
def recipeFor (req : RequestParams) (_server _client : StreamInfo) :
    Except Err DonutRecipe :=
  match appetizer req with
  | .error e => .error e
  | .ok app =>
    .ok { input := app
          video := { action := .bypass
                     codec := .h264
                     codecContextOptions := []
                     donutBitStreamFilter := some "h264_mp4toannexb".toList
                     donutStreamFilter := none }
          audio := { action := .transcode
                     codec := .opus
                     codecContextOptions :=
                       [.setSampleRate 48000, .setBitRate 128000,
                        .setSampleFormat "s16".toList]
                     donutBitStreamFilter := none
                     donutStreamFilter := some "aresample=48000".toList } }

/-! ## Input opening (`prepareInput` / prober `StreamInfo`) -/

/-- The SRT URL rewrite shared by `LibAVFFmpeg.StreamInfo` and
`LibAVFFmpegStreamer.prepareInput`: when the lower-cased URL contains
`srt://`, split on `"://"`; if that yields exactly two parts, drop any query
string from the second, split the remainder on `":"`, and if that yields
exactly two parts rebuild the URL as `srt://0.0.0.0:<port>`; in every other
case the URL is left unchanged. -/
def rewriteSRTURL (inputURL : Str) : Str :=
  if lowerContains inputURL "srt://".toList then
    match splitOnL inputURL "://".toList with
    | [_, rest] =>
      match splitOnL ((splitOnL rest "?".toList).headD []) ":".toList with
      | [_, port] => "srt://0.0.0.0:".toList ++ port
      | _ => inputURL
    | _ => inputURL
  else inputURL

/-- The URL and option dictionary actually handed to
`inputFormatContext.OpenInput` by `prepareInput` (and, identically, by the
prober's `StreamInfo`): the appetizer URL after the SRT rewrite, the appetizer
options copied into a fresh dictionary, and `mode=listener` added when the
rewritten URL (lower-cased) contains `srt://`. -/
def openInputConfig (app : DonutAppetizer) : Str × List (Str × Str) :=
  let inputURL := rewriteSRTURL app.url
  let opts := dictOfOptions app.options
  let opts :=
    if lowerContains inputURL "srt://".toList then
      dictSet opts "mode".toList "listener".toList
    else opts
  (inputURL, opts)

/-- The fields of an `astiav.Stream` the streamer reads. -/
structure InputStream where
  index : Nat
  timeBase : AVRational
  mediaType : MediaType
  avgFrameRateNum : Int
  deriving DecidableEq, Repr

/-- The decoder-context setup `prepareInput` performs for one input stream: the context is
filled from the stream's codec parameters (`paramsCtx`), its timebase is set to
the input stream's timebase, and for video the framerate is set to the
container's guess. -/
def setupDecoderCtx (is : InputStream) (paramsCtx : CodecContext)
    (guessedRate : AVRational) : CodecContext :=
  let c := { paramsCtx with timeBase := is.timeBase }
  if is.mediaType = .video then { c with framerate := guessedRate } else c

/-! ## Encoder configuration (`prepareOutput`) -/

/-- The capability lists of the encoder `astiav.Codec` found for the target
codec: `ChannelLayouts()`, `SampleFormats()`, `PixelFormats()`. -/
structure EncoderCaps where
  channelLayouts : List Nat
  sampleFormats : List SampleFormat
  pixelFormats : List Int
  deriving DecidableEq, Repr

/-- The per-stream body of `prepareOutput` after the encoder has been found and
its context allocated (`init` is the freshly allocated context): `none` for the
bypass-skipped combinations, otherwise the configured encoder context as it is
handed to `encCodecContext.Open`.  Audio: channel layout from the encoder's
first supported value else the decoder's, channels / sample rate / timebase
from the decoder, sample format from the encoder's first supported value else
the decoder's.  Video: pixel format from the encoder's first supported value
else the decoder's, aspect ratio / timebase / height / width from the decoder,
then `recipe.video.codecContextOptions` folded over the context.  (The Go code
applies codec-context options only in the video branch; the audio branch never
reads `recipe.audio.codecContextOptions`.)  Finally the decoder's global-header
flag is mirrored. -/
def prepareOutputStream (recipe : DonutRecipe) (dec : CodecContext)
    (enc : EncoderCaps) (init : CodecContext) : Option CodecContext :=
  let isVideo := dec.mediaType = .video
  let isAudio := dec.mediaType = .audio
  if isVideo ∧ recipe.video.action = .bypass then none
  else if isAudio ∧ recipe.audio.action = .bypass then none
  else
    let e := init
    let e :=
      if isAudio then
        let a := { e with channelLayout := enc.channelLayouts.headD dec.channelLayout }
        let a := { a with channels := dec.channels }
        let a := { a with sampleRate := dec.sampleRate }
        let a := { a with sampleFormat := enc.sampleFormats.headD dec.sampleFormat }
        { a with timeBase := dec.timeBase }
      else e
    let e :=
      if isVideo then
        let v := { e with pixelFormat := enc.pixelFormats.headD dec.pixelFormat }
        let v := { v with sampleAspect := dec.sampleAspect }
        let v := { v with timeBase := dec.timeBase }
        let v := { v with height := dec.height }
        let v := { v with width := dec.width }
        recipe.video.codecContextOptions.foldl applyOpt v
      else e
    let e := if dec.flagGlobalHeader then { e with flagGlobalHeader := true } else e
    some e

/-! ## Timestamp rescaling (`astiav.Packet.RescaleTs` = `av_packet_rescale_ts`) -/

/-- libav `AV_NOPTS_VALUE` (`INT64_MIN`). -/
def avNoptsValue : Int := -(2 ^ 63)

/-- libav `av_rescale_rnd a b c` with rounding `AV_ROUND_NEAR_INF` (round to
nearest, ties away from zero); `b` and `c` are positive in every modelled call
(products of timebase components), which libav itself asserts. -/
def avRescaleRnd (a b c : Int) : Int :=
  if a < 0 then -((-a * b + c / 2) / c) else (a * b + c / 2) / c

/-- libav `av_rescale_q a bq cq = av_rescale_rnd a (bq.num * cq.den)
(cq.num * bq.den)`. -/
def avRescaleQ (a : Int) (bq cq : AVRational) : Int :=
  avRescaleRnd a (bq.num * cq.den) (cq.num * bq.den)

/-- The fields of an `astiav.Packet` the streamer reads or rewrites. -/
structure Pkt where
  streamIndex : Nat
  pts : Int
  dts : Int
  duration : Int
  data : List Nat
  deriving DecidableEq, Repr

/-- Function `av_packet_rescale_ts` (what `pkt.RescaleTs(src, dst)` runs): rescale
`pts` and `dts` unless they are `AV_NOPTS_VALUE`, and `duration` when it is
positive. -/
def rescaleTsPkt (p : Pkt) (src dst : AVRational) : Pkt :=
  { p with
    pts := if p.pts = avNoptsValue then p.pts else avRescaleQ p.pts src dst
    dts := if p.dts = avNoptsValue then p.dts else avRescaleQ p.dts src dst
    duration := if p.duration > 0 then avRescaleQ p.duration src dst else p.duration }

/-! ## Frame durations (`defineAudioDuration` / `defineVideoDuration`) -/

/-- The two duration-tracking fields of the `LibAVFFmpegStreamer` struct.
They live on the streamer, not on a stream context: every audio stream of a
session (and every session served by the same streamer value) shares them. -/
structure StreamerTicker where
  lastAudioFrameDTS : Int
  currentAudioFrameSize : Int
  deriving DecidableEq, Repr

/-- Method `defineAudioDuration`: when the input stream is audio, recompute
`currentAudioFrameSize` as `dts - lastAudioFrameDTS` whenever that difference
is positive, unconditionally store the packet's DTS as `lastAudioFrameDTS`,
and return `currentAudioFrameSize / encoderSampleRate` seconds; for non-audio
streams return zero and leave the state alone. -/
def defineAudioDuration (st : StreamerTicker) (inputMediaType : MediaType)
    (encSampleRate : Int) (pktDts : Int) : StreamerTicker × ℚ :=
  if inputMediaType = .audio then
    let st1 :=
      if pktDts - st.lastAudioFrameDTS > 0 then
        { st with currentAudioFrameSize := pktDts - st.lastAudioFrameDTS }
      else st
    let st2 := { st1 with lastAudioFrameDTS := pktDts }
    (st2, (st1.currentAudioFrameSize : ℚ) / (encSampleRate : ℚ))
  else (st, 0)

/-- Method `defineVideoDuration`: `1 / avg_frame_rate.num` seconds for video input
streams, zero otherwise. -/
def defineVideoDuration (inputMediaType : MediaType) (avgFrameRateNum : Int) : ℚ :=
  if inputMediaType = .video then 1 / (avgFrameRateNum : ℚ) else 0

/-- Runs `defineAudioDuration` over a trace of audio packets
`(stream index, dts)` exactly as the streamer does: one shared
`StreamerTicker`, the stream index never consulted.  Returns the dispatched
durations in order. -/
def runAudioDurations (sr : Int) : StreamerTicker → List (Nat × Int) → List ℚ
  | _, [] => []
  | st, (_, dts) :: rest =>
    let r := defineAudioDuration st .audio sr dts
    r.2 :: runAudioDurations sr r.1 rest

/-- Modelled from the claim's words, for comparison with `runAudioDurations`:
the same duration rule but with the tracking state kept per audio stream
(`states i` is stream `i`'s ticker), as the sentence "state tracked per audio
stream ... the stream's last_dts" prescribes. -/
def runAudioDurationsPerStream (sr : Int) (states : Nat → StreamerTicker) :
    List (Nat × Int) → List ℚ
  | [] => []
  | (i, dts) :: rest =>
    let r := defineAudioDuration (states i) .audio sr dts
    r.2 :: runAudioDurationsPerStream sr
      (fun j => if j = i then r.1 else states j) rest

/-! ## Packet dispatch (`processPacket` bypass branches, `encodeFrame` output) -/

/-- A frame delivered to `OnVideoFrame` / `OnAudioFrame`: payload plus the
`entities.MediaFrameContext` (PTS, DTS, duration in seconds). -/
inductive FrameEvent
  | video (payload : List Nat) (pts dts : Int) (dur : ℚ)
  | audio (payload : List Nat) (pts dts : Int) (dur : ℚ)
  deriving DecidableEq, Repr

/-- The DTS carried by a dispatched frame. -/
def FrameEvent.dts : FrameEvent → Int
  | .video _ _ d _ => d
  | .audio _ _ d _ => d

/-- The per-stream state `processPacket` consults on the bypass path: the
input stream handle, the decoder context's timebase (set by `prepareInput` via
`setupDecoderCtx`, hence equal to the input stream's), the decoder context's
media type, and — for the audio duration heuristic — the encoder context's
sample rate. -/
structure StreamCtx where
  inputStream : InputStream
  decTimeBase : AVRational
  decMediaType : MediaType
  encSampleRate : Int
  deriving DecidableEq, Repr

/-- The bypass branches of `processPacket` (both sinks assumed installed, as
the WHEP handler always installs them): rescale the packet's timestamps from
the input stream timebase to the decoder timebase, then dispatch the payload
with the rescaled PTS/DTS and the synthesized duration.  Video updates no
state; audio threads the shared `StreamerTicker` through
`defineAudioDuration`.  Returns `none` for media types the function ignores
and for non-bypass actions (which take the decode path instead). -/
def processPacketBypass (recipe : DonutRecipe) (st : StreamerTicker)
    (s : StreamCtx) (pkt : Pkt) : Option (StreamerTicker × FrameEvent) :=
  let isVideo := s.decMediaType = .video
  let isAudio := s.decMediaType = .audio
  if isVideo ∧ recipe.video.action = .bypass then
    let p := rescaleTsPkt pkt s.inputStream.timeBase s.decTimeBase
    some (st, .video p.data p.pts p.dts
      (defineVideoDuration s.inputStream.mediaType s.inputStream.avgFrameRateNum))
  else if isAudio ∧ recipe.audio.action = .bypass then
    let p := rescaleTsPkt pkt s.inputStream.timeBase s.decTimeBase
    let r := defineAudioDuration st s.inputStream.mediaType s.encSampleRate p.dts
    some (r.1, .audio p.data p.pts p.dts r.2)
  else none

/-- Runs `processPacketBypass` folded over a packet list on a video bypass stream
(the canonical H.264 path); collects the dispatched frames in order. -/
def runBypassVideo (recipe : DonutRecipe) (s : StreamCtx) :
    List Pkt → List FrameEvent
  | [] => []
  | pkt :: rest =>
    match processPacketBypass recipe ⟨0, 0⟩ s pkt with
    | some (_, ev) => ev :: runBypassVideo recipe s rest
    | none => runBypassVideo recipe s rest

/-- The timestamp rescale `encodeFrame` performs on every encoder output
packet before wrapping it in RTP and dispatching:
`encPkt.RescaleTs(inputStream.TimeBase(), encCodecContext.TimeBase())`. -/
def encodeDispatchDts (inputTB encTB : AVRational) (encPktDts : Int) : Int :=
  (rescaleTsPkt { streamIndex := 0, pts := 0, dts := encPktDts, duration := 0,
                  data := [] } inputTB encTB).dts

/-! ## The run loop (`Stream`, `applyBitStreamFilter`) -/

/-- The outside world of one `Stream` run: which stream indices have a
`streamContext` (and whether it carries a bit-stream filter), and oracles for
the outcomes of the libav calls made per packet.  `procPacket i p` is the
observable outcome of `processPacket` on packet `p` of stream `i`: the frames
it dispatched before returning, and the error it returned if any (decoder
send/receive failure, filter failure, encode failure, RTP marshal failure, or
an error returned by a sink).  `bsfSend i p` is the non-`EAGAIN` error of
`bsfContext.SendPacket`, if any; `bsfPull i p` is the list of packets
`bsfContext.ReceivePacket` yields before it ends with `EOF`/`EAGAIN`
(`none`) or a receive error (`some e`). -/
structure LoopEnv where
  streams : Nat → Option Bool
  procPacket : Nat → Pkt → List FrameEvent × Option Err
  bsfSend : Nat → Pkt → Option Err
  bsfPull : Nat → Pkt → List Pkt × Option Err

/-- The outcome of one `inputFormatContext.ReadFrame` call. -/
inductive ReadRes
  | ok (p : Pkt)
  | fail (e : Err)
  deriving Repr

/-- What one iteration of the `select` loop observes: either the cancellation
token has fired with cause `cause` (`donut.Ctx.Err()`), or a read result. -/
inductive IterInput
  | ctxDone (cause : Err)
  | read (r : ReadRes)
  deriving Repr

/-- Everything a session emits through its sinks: dispatched frames and
`OnError` invocations. -/
inductive OutEvent
  | frame (f : FrameEvent)
  | errorCb (e : Err)
  deriving DecidableEq, Repr

/-- Method `applyBitStreamFilter`: push the packet into the filter (a non-`EAGAIN`
send error is returned), then pull packets out until `EOF`/`EAGAIN` (break) or
a receive error (returned); each pulled packet goes through `processPacket`
whose return value the Go code discards (`c.processPacket(p, s.bsfPacket, s,
donut)` on its own line), so frames dispatched inside it are kept but its
error, if any, is dropped. -/
def applyBitStreamFilterModel (env : LoopEnv) (idx : Nat) (pkt : Pkt) :
    List OutEvent × Option Err :=
  match env.bsfSend idx pkt with
  | some e => ([], some e)
  | none =>
    let pulled := env.bsfPull idx pkt
    ((pulled.1.map (fun q => (env.procPacket idx q).1.map OutEvent.frame)).flatten,
      pulled.2)

/-- The run loop of `Stream` (steps after the four prepare phases), driven by
the per-iteration observations: on cancellation return silently if the cause
is `context.Canceled`, else surface it via `OnError` and return; on a read
error return silently for `astiav.ErrEof` / `io.EOF` / `context.Canceled` /
`io.ErrClosedPipe`, else surface it and return; on a packet of unknown stream
index skip it; on a packet of a known stream run `applyBitStreamFilter` when
the stream has one (surfacing its returned error and stopping) and
`processPacket` otherwise (likewise).  The result is the ordered list of sink
events of the rest of the session. -/
def runLoop (env : LoopEnv) : List IterInput → List OutEvent
  | [] => []
  | .ctxDone cause :: _ =>
    if cause = .contextCanceled then [] else [.errorCb cause]
  | .read (.fail e) :: _ =>
    if e = .eofAV ∨ e = .eofStdlib then []
    else if e = .contextCanceled ∨ e = .closedPipe then []
    else [.errorCb e]
  | .read (.ok pkt) :: rest =>
    match env.streams pkt.streamIndex with
    | none => runLoop env rest
    | some hasBsf =>
      if hasBsf then
        match applyBitStreamFilterModel env pkt.streamIndex pkt with
        | (evs, some e) => evs ++ [.errorCb e]
        | (evs, none) => evs ++ runLoop env rest
      else
        match env.procPacket pkt.streamIndex pkt with
        | (evs, some e) => evs.map OutEvent.frame ++ [.errorCb e]
        | (evs, none) => evs.map OutEvent.frame ++ runLoop env rest

/-- Number of `OnError` invocations in an event list. -/
def errorCbCount (evs : List OutEvent) : Nat :=
  evs.countP (fun ev => match ev with | .errorCb _ => true | _ => false)

/-- Tests whether `recipeFor` / `appetizer` failed. -/
def isRecipeError : Except Err DonutRecipe → Bool
  | .error _ => true
  | .ok _ => false

/-! ## Concrete instances used by counterexamples and witnesses -/

/-- The video task `RecipeFor` always builds. -/
def canonicalVideoTask : DonutMediaTask :=
  { action := .bypass
    codec := .h264
    codecContextOptions := []
    donutBitStreamFilter := some "h264_mp4toannexb".toList
    donutStreamFilter := none }

/-- The audio task `RecipeFor` always builds. -/
def canonicalAudioTask : DonutMediaTask :=
  { action := .transcode
    codec := .opus
    codecContextOptions :=
      [.setSampleRate 48000, .setBitRate 128000, .setSampleFormat "s16".toList]
    donutBitStreamFilter := none
    donutStreamFilter := some "aresample=48000".toList }

/-- A validated SRT request (the repository's default stream URL and a stream
id). -/
def reqSRT : RequestParams :=
  { streamURL := "srt://localhost:40053".toList, streamID := "live".toList }

/-- The appetizer `Appetizer` builds for `reqSRT`. -/
def srtAppetizer : DonutAppetizer :=
  { url := "srt://localhost:40053".toList
    format := "mpegts".toList
    options := [("srt_streamid".toList, "live".toList),
                ("transtype".toList, "live".toList),
                ("smoother".toList, "live".toList)] }

/-- The recipe `RecipeFor` builds for `reqSRT`. -/
def canonicalRecipe : DonutRecipe :=
  { input := srtAppetizer, video := canonicalVideoTask, audio := canonicalAudioTask }

/-- A server stream info offering only VP8 video. -/
def serverVP8 : StreamInfo := ⟨[⟨.vp8, .video, 0, 0⟩]⟩

/-- An empty stream info. -/
def emptyInfo : StreamInfo := ⟨[]⟩

/-- A decoder context for a 44.1 kHz stereo AAC input stream, as
`prepareInput` would fill it. -/
def aacDecoder441 : CodecContext :=
  { mediaType := .audio, sampleRate := 44100, bitRate := 0, sampleFormat := .fltp,
    channels := 2, channelLayout := 3, timeBase := ⟨1, 90000⟩, pixelFormat := 0,
    sampleAspect := ⟨0, 1⟩, height := 0, width := 0, profile := 0, gopSize := 0,
    flagGlobalHeader := false, framerate := ⟨0, 1⟩ }

/-- The capability lists of the libopus encoder (its first supported sample
format is `s16`; `3` stands for the stereo channel layout). -/
def opusEncoderCaps : EncoderCaps :=
  { channelLayouts := [3], sampleFormats := [.s16, .flt], pixelFormats := [] }

/-- A freshly allocated codec context, before any field is set. -/
def allocCodecContext : CodecContext :=
  { mediaType := .unknownType, sampleRate := 0, bitRate := 0,
    sampleFormat := .other 0, channels := 0, channelLayout := 0,
    timeBase := ⟨0, 1⟩, pixelFormat := 0, sampleAspect := ⟨0, 1⟩, height := 0,
    width := 0, profile := 0, gopSize := 0, flagGlobalHeader := false,
    framerate := ⟨0, 1⟩ }

/-- A stream context whose input and decoder timebases are `1/1` (video
stream at 30 fps). -/
def scIdentity : StreamCtx :=
  { inputStream := { index := 0, timeBase := ⟨1, 1⟩, mediaType := .video,
                     avgFrameRateNum := 30 }
    decTimeBase := ⟨1, 1⟩
    decMediaType := .video
    encSampleRate := 48000 }

/-- A packet of stream 0 with the given DTS (PTS equal to it). -/
def pktd (d : Int) : Pkt := ⟨0, d, d, 0, []⟩

/-- A packet of stream `i` with zero timestamps. -/
def pktOf (i : Nat) : Pkt := ⟨i, 0, 0, 0, []⟩

/-- A loop environment with no known streams and inert oracles. -/
def envTrivial : LoopEnv :=
  { streams := fun _ => none
    procPacket := fun _ _ => ([], none)
    bsfSend := fun _ _ => none
    bsfPull := fun _ _ => ([], none) }

/-- A loop environment where stream 0 carries a bit-stream filter that echoes
its input packet and whose `processPacket` fails with a decoder send error,
while stream 1 has no filter and dispatches one video frame per packet. -/
def envDropsBsfError : LoopEnv :=
  { streams := fun i => if i = 0 then some true else if i = 1 then some false else none
    procPacket := fun i _ =>
      if i = 0 then ([], some .sendPacketFailed) else ([.video [] 7 7 0], none)
    bsfSend := fun _ _ => none
    bsfPull := fun _ p => ([p], none) }

/-- A loop environment where every stream is known, has no bit-stream filter,
and `processPacket` fails with an encode error. -/
def envDirectError : LoopEnv :=
  { streams := fun _ => some false
    procPacket := fun _ _ => ([], some .encodeFailed)
    bsfSend := fun _ _ => none
    bsfPull := fun _ _ => ([], none) }

/-! ## Theorems -/

/-- C8: `Valid()` returns nil exactly when the receiver is non-nil, `StreamID`
is non-empty, `StreamURL` is non-empty, and the lower-cased `StreamURL`
contains `rtmp` or `srt`; under the other validity conditions a non-empty
`StreamURL` containing neither substring is rejected with the unsupported-URL
error.  Validation is modelled as a pure function of the request, mirroring
that the Go method never writes through its receiver. -/
theorem valid_request_characterization (p : RequestParams) :
    (validRequest (some p) = none ↔
      p.streamID ≠ [] ∧ p.streamURL ≠ [] ∧
        (lowerContains p.streamURL "rtmp".toList
          || lowerContains p.streamURL "srt".toList) = true)
    ∧ validRequest none = some Err.missingParamsOffer
    ∧ (p.streamID ≠ [] → p.streamURL ≠ [] →
        lowerContains p.streamURL "rtmp".toList = false →
        lowerContains p.streamURL "srt".toList = false →
        validRequest (some p) = some Err.unsupportedStreamURL) := by
  refine ⟨?_, rfl, ?_⟩
  · simp only [validRequest]
    by_cases h1 : p.streamID = []
    · rw [if_pos h1]
      simp [h1]
    · rw [if_neg h1]
      by_cases h2 : p.streamURL = []
      · rw [if_pos h2]
        simp [h2]
      · rw [if_neg h2]
        cases hh : (lowerContains p.streamURL "rtmp".toList
            || lowerContains p.streamURL "srt".toList)
        · simp [h1, h2]
        · simp [h1, h2]
  · intro h1 h2 h3 h4
    simp only [validRequest]
    rw [if_neg h1, if_neg h2, h3, h4]
    rfl

/-- Witness for C8 at a concrete rejected request. -/
theorem valid_request_characterization_witness :
    validRequest (some ⟨"http://example.com/stream".toList, "abc".toList⟩)
      = some Err.unsupportedStreamURL :=
  (valid_request_characterization _).2.2 (by decide) (by decide) (by decide)
    (by decide)

/-- C10: when the lower-cased URL contains both `rtmp` and `srt`, the RTMP
branch of `Appetizer` wins: URL `<stream_url>/<stream_id>`, format `flv`, and
the single option `rtmp_live=live`; none of the SRT options are attached. -/
theorem appetizer_rtmp_precedence (req : RequestParams)
    (hr : lowerContains req.streamURL "rtmp".toList = true)
    (_hs : lowerContains req.streamURL "srt".toList = true) :
    appetizer req = .ok { url := req.streamURL ++ "/".toList ++ req.streamID
                          format := "flv".toList
                          options := [("rtmp_live".toList, "live".toList)] }
    ∧ optGet [("rtmp_live".toList, "live".toList)] "srt_streamid".toList = none
    ∧ optGet [("rtmp_live".toList, "live".toList)] "transtype".toList = none
    ∧ optGet [("rtmp_live".toList, "live".toList)] "smoother".toList = none := by
  refine ⟨?_, by decide, by decide, by decide⟩
  simp only [appetizer]
  rw [hr]
  rfl

/-- Witness for C10 at a URL containing both `rtmp` and `srt`. -/
theorem appetizer_rtmp_precedence_witness :
    appetizer ⟨"rtmp://example.com/srt".toList, "live".toList⟩
      = .ok { url := "rtmp://example.com/srt".toList ++ "/".toList ++ "live".toList
              format := "flv".toList
              options := [("rtmp_live".toList, "live".toList)] } :=
  (appetizer_rtmp_precedence ⟨"rtmp://example.com/srt".toList, "live".toList⟩
    (by decide) (by decide)).1

/-- Helper: the only error `appetizer` can return is the unsupported-URL
error. -/
theorem appetizer_error_unsupported (req : RequestParams) (e : Err)
    (h : appetizer req = .error e) : e = .unsupportedStreamURL := by
  unfold appetizer at h
  by_cases hr : lowerContains req.streamURL "rtmp".toList = true
  · rw [if_pos hr] at h
    cases h
  · rw [if_neg hr] at h
    by_cases hs : lowerContains req.streamURL "srt".toList = true
    · rw [if_pos hs] at h
      cases h
    · rw [if_neg hs] at h
      cases h
      rfl

/-- C3 counterexample: for an SRT request and a server stream info whose only
video stream is VP8 (not H.264), `RecipeFor` returns a recipe and not an
error, contradicting the claim that an `UnsupportedCodec` error is surfaced
for every non-H.264 server video codec. -/
theorem recipeFor_vp8_no_error :
    isRecipeError (recipeFor reqSRT serverVP8 emptyInfo) = false
    ∧ recipeFor reqSRT serverVP8 emptyInfo = .ok canonicalRecipe := by
  exact ⟨rfl, rfl⟩

/-- C3 amended: `RecipeFor` never inspects the server (or client) stream
info; it emits the video task `{bypass, h264, bitstream_filter =
h264_mp4toannexb}` for every pair of stream infos — whether or not the server
offers H.264 — and the only error it can surface is the unsupported-URL error
coming from `Appetizer`; no `UnsupportedCodec` error exists. -/
theorem recipeFor_fixed_video_task (req : RequestParams)
    (server client server' client' : StreamInfo) :
    recipeFor req server client = recipeFor req server' client'
    ∧ (∀ r, recipeFor req server client = .ok r → r.video = canonicalVideoTask)
    ∧ (∀ e, recipeFor req server client = .error e →
        e = .unsupportedStreamURL) := by
  refine ⟨rfl, ?_, ?_⟩
  · intro r h
    unfold recipeFor at h
    cases happ : appetizer req with
    | error e => rw [happ] at h; cases h
    | ok a => rw [happ] at h; cases h; rfl
  · intro e h
    unfold recipeFor at h
    cases happ : appetizer req with
    | error e' =>
      rw [happ] at h
      cases h
      exact appetizer_error_unsupported req e happ
    | ok a => rw [happ] at h; cases h

/-- Witness for C3 at the VP8 server info. -/
theorem recipeFor_fixed_video_task_witness :
    canonicalRecipe.video = canonicalVideoTask :=
  (recipeFor_fixed_video_task reqSRT serverVP8 emptyInfo emptyInfo
    emptyInfo).2.1 canonicalRecipe rfl

/-- C4 counterexample: for the SRT request `srt://localhost:40053`, the
appetizer's options carry only `srt_streamid`, `transtype` and `smoother` —
`mode=listener` is absent from the ingest descriptor (it is only added to the
open-time dictionary by the prober/streamer), so the claim that the Appetizer's
options carry `mode=listener` fails. -/
theorem appetizer_srt_lacks_listener_mode :
    appetizer reqSRT = .ok srtAppetizer
    ∧ optGet srtAppetizer.options "mode".toList = none := by
  exact ⟨rfl, by decide⟩

/-- C4 amended: for a validated request whose lower-cased URL contains `srt`
and not `rtmp`, the appetizer has container format `mpegts`, URL equal to the
raw stream URL, and options `srt_streamid=<stream_id>`, `transtype=live`,
`smoother=live` — without `mode=listener`.  The opener (prober and streamer
alike) then adds `mode=listener` to the option dictionary exactly when the
rewritten URL contains `srt://`, and the URL it actually opens is the bind
form `srt://0.0.0.0:<port>` exactly when the URL splits as
`<scheme>://<host>:<port>` (optionally followed by `?query`). -/
theorem appetizer_srt_shape (req : RequestParams)
    (hs : lowerContains req.streamURL "srt".toList = true)
    (hr : lowerContains req.streamURL "rtmp".toList = false) :
    appetizer req = .ok { url := req.streamURL
                          format := "mpegts".toList
                          options := [("srt_streamid".toList, req.streamID),
                                      ("transtype".toList, "live".toList),
                                      ("smoother".toList, "live".toList)] }
    ∧ (∀ app, appetizer req = .ok app →
        optGet app.options "mode".toList = none
        ∧ (lowerContains (rewriteSRTURL app.url) "srt://".toList = true →
            optGet (openInputConfig app).2 "mode".toList
              = some "listener".toList)
        ∧ (lowerContains (rewriteSRTURL app.url) "srt://".toList = false →
            optGet (openInputConfig app).2 "mode".toList = none)
        ∧ (∀ s1 rest hp port,
            lowerContains app.url "srt://".toList = true →
            splitOnL app.url "://".toList = [s1, rest] →
            splitOnL ((splitOnL rest "?".toList).headD []) ":".toList
              = [hp, port] →
            (openInputConfig app).1 = "srt://0.0.0.0:".toList ++ port)) := by
  have happ : appetizer req
      = .ok { url := req.streamURL
              format := "mpegts".toList
              options := [("srt_streamid".toList, req.streamID),
                          ("transtype".toList, "live".toList),
                          ("smoother".toList, "live".toList)] } := by
    simp only [appetizer]
    rw [hr, hs]
    rfl
  refine ⟨happ, ?_⟩
  intro app h
  rw [happ] at h
  cases h
  refine ⟨rfl, ?_, ?_, ?_⟩
  · intro hc
    simp only [openInputConfig]
    rw [hc]
    rfl
  · intro hc
    simp only [openInputConfig]
    rw [hc]
    rfl
  · intro s1 rest hp port hurl hsplit1 hsplit2
    simp only [openInputConfig, rewriteSRTURL, hurl, hsplit1, hsplit2, if_true]

/-- Witness for C4 at the concrete request `srt://localhost:40053`: the opened
URL is the bind form and the opened options carry `mode=listener`. -/
theorem appetizer_srt_shape_witness :
    (openInputConfig srtAppetizer).1 = "srt://0.0.0.0:".toList ++ "40053".toList
    ∧ optGet (openInputConfig srtAppetizer).2 "mode".toList
      = some "listener".toList := by
  have h := (appetizer_srt_shape reqSRT (by decide) (by decide)).2
    srtAppetizer rfl
  exact ⟨h.2.2.2 "srt".toList "localhost:40053".toList "localhost".toList
    "40053".toList (by decide) (by decide) (by decide), h.2.1 (by decide)⟩

/-- C1 (code bug): `prepareOutput` configures the audio encoder with the
defaults (channel layout and sample format from the encoder's first supported
value else the decoder's; sample rate and channel count from the decoder;
timebase from the decoder) but never applies
`Recipe.Audio.CodecContextOptions` — only the video branch folds the
options.  For a 44.1 kHz AAC decoder under the canonical recipe the opened
audio encoder keeps sample rate 44100 and the allocated context's bit rate,
while folding the recipe's audio options (as the spec prescribes) would yield
48000 / 128000; the result is also independent of whatever audio options the
recipe carries. -/
theorem prepareOutput_audio_ignores_codec_options :
    recipeFor reqSRT emptyInfo emptyInfo = .ok canonicalRecipe
    ∧ (prepareOutputStream canonicalRecipe aacDecoder441 opusEncoderCaps
        allocCodecContext).map (fun c => (c.sampleRate, c.bitRate, c.sampleFormat))
      = some (44100, 0, .s16)
    ∧ (prepareOutputStream canonicalRecipe aacDecoder441 opusEncoderCaps
        allocCodecContext).map (fun c =>
          let c' := canonicalRecipe.audio.codecContextOptions.foldl applyOpt c
          (c'.sampleRate, c'.bitRate, c'.sampleFormat))
      = some (48000, 128000, .s16)
    ∧ (∀ opts enc init,
        prepareOutputStream
          { canonicalRecipe with
            audio := { canonicalRecipe.audio with codecContextOptions := opts } }
          aacDecoder441 enc init
        = prepareOutputStream canonicalRecipe aacDecoder441 enc init) :=
  ⟨rfl, by decide, by decide, fun _ _ _ => rfl⟩

/-- C7: end-of-stream (`astiav.ErrEof` / `io.EOF`) and closed-pipe (or
`context.Canceled`) read results make the loop return without invoking
`OnError`; a cancellation whose cause is the cooperative `context.Canceled`
likewise returns silently, while any other cause is surfaced via `OnError`. -/
theorem runLoop_clean_termination (env : LoopEnv) (rest : List IterInput)
    (cause : Err) :
    runLoop env (.read (.fail .eofAV) :: rest) = []
    ∧ runLoop env (.read (.fail .eofStdlib) :: rest) = []
    ∧ runLoop env (.read (.fail .closedPipe) :: rest) = []
    ∧ runLoop env (.read (.fail .contextCanceled) :: rest) = []
    ∧ runLoop env (.ctxDone .contextCanceled :: rest) = []
    ∧ (cause ≠ .contextCanceled →
        runLoop env (.ctxDone cause :: rest) = [.errorCb cause]) := by
  refine ⟨by simp [runLoop], by simp [runLoop], by simp [runLoop],
    by simp [runLoop], by simp [runLoop], fun h => by simp [runLoop, h]⟩

/-- Witness for C7 at a non-cooperative cancellation cause. -/
theorem runLoop_clean_termination_witness :
    runLoop envTrivial [.ctxDone .deadlineExceeded]
      = [.errorCb .deadlineExceeded] :=
  (runLoop_clean_termination envTrivial [] .deadlineExceeded).2.2.2.2.2
    (by decide)

/-- Helper: `av_rescale_rnd` with equal positive factors is the identity. -/
theorem avRescaleRnd_self (a b : Int) (hb : 0 < b) : avRescaleRnd a b b = a := by
  have hhalf0 : 0 ≤ b / 2 := by omega
  have hhalf : b / 2 < b := by omega
  have key : ∀ x : Int, (x * b + b / 2) / b = x := by
    intro x
    rw [add_comm, Int.add_mul_ediv_right _ _ hb.ne',
      Int.ediv_eq_zero_of_lt hhalf0 hhalf, zero_add]
  unfold avRescaleRnd
  by_cases ha : a < 0
  · rw [if_pos ha, key, neg_neg]
  · rw [if_neg ha, key]

/-- Helper: `av_rescale_q` between equal positive timebases is the identity. -/
theorem avRescaleQ_self (a : Int) (tb : AVRational) (hn : 0 < tb.num)
    (hd : 0 < tb.den) : avRescaleQ a tb tb = a :=
  avRescaleRnd_self a _ (mul_pos hn hd)

/-- Helper: `av_packet_rescale_ts` between equal positive timebases leaves the
packet unchanged. -/
theorem rescaleTsPkt_self (p : Pkt) (tb : AVRational) (hn : 0 < tb.num)
    (hd : 0 < tb.den) : rescaleTsPkt p tb tb = p := by
  unfold rescaleTsPkt
  simp [avRescaleQ_self _ _ hn hd]

/-- C9: `prepareInput` sets the decoder context's timebase to the input
stream's timebase, so the bypass-path rescale from input-stream timebase to
decoder timebase is the identity: every bypassed packet is dispatched with the
input packet's original PTS and DTS (and `av_packet_rescale_ts` between these
equal timebases changes no packet at all). -/
theorem bypass_dispatch_preserves_timestamps (recipe : DonutRecipe)
    (st : StreamerTicker) (is : InputStream) (paramsCtx : CodecContext)
    (guessed : AVRational) (sr : Int) (pkt : Pkt)
    (hn : 0 < is.timeBase.num) (hd : 0 < is.timeBase.den)
    (hv : recipe.video.action = .bypass) (hmt : is.mediaType = .video)
    (hpm : paramsCtx.mediaType = .video) :
    (setupDecoderCtx is paramsCtx guessed).timeBase = is.timeBase
    ∧ (∀ q : Pkt,
        rescaleTsPkt q is.timeBase (setupDecoderCtx is paramsCtx guessed).timeBase
          = q)
    ∧ processPacketBypass recipe st
        { inputStream := is
          decTimeBase := (setupDecoderCtx is paramsCtx guessed).timeBase
          decMediaType := (setupDecoderCtx is paramsCtx guessed).mediaType
          encSampleRate := sr } pkt
      = some (st, .video pkt.data pkt.pts pkt.dts
          (defineVideoDuration is.mediaType is.avgFrameRateNum)) := by
  have htb : (setupDecoderCtx is paramsCtx guessed).timeBase = is.timeBase := by
    simp [setupDecoderCtx, hmt]
  have hm : (setupDecoderCtx is paramsCtx guessed).mediaType = .video := by
    simp [setupDecoderCtx, hmt, hpm]
  refine ⟨htb, ?_, ?_⟩
  · intro q
    rw [htb]
    exact rescaleTsPkt_self q is.timeBase hn hd
  · simp only [processPacketBypass, hm, hv, htb,
      rescaleTsPkt_self pkt is.timeBase hn hd]
    rfl

/-- Witness for C9 at a concrete 90 kHz video stream and packet. -/
theorem bypass_dispatch_preserves_timestamps_witness :
    processPacketBypass canonicalRecipe ⟨0, 0⟩
      { inputStream := { index := 0, timeBase := ⟨1, 90000⟩,
                         mediaType := .video, avgFrameRateNum := 30 }
        decTimeBase := ⟨1, 90000⟩
        decMediaType := .video
        encSampleRate := 48000 } (pktd 3003)
      = some (⟨0, 0⟩, .video [] 3003 3003
          (defineVideoDuration .video 30)) :=
  (bypass_dispatch_preserves_timestamps canonicalRecipe ⟨0, 0⟩
    { index := 0, timeBase := ⟨1, 90000⟩, mediaType := .video,
      avgFrameRateNum := 30 }
    { aacDecoder441 with mediaType := .video } ⟨30, 1⟩ 48000 (pktd 3003)
    (by decide) (by decide) rfl rfl rfl).2.2

/-- C6 counterexample: the duration state is a pair of fields on the streamer,
shared by all audio streams.  Interleaving two audio streams (stream 0 at DTS
0 then 960, stream 1 at DTS 10000) makes the code reuse stream 1's delta for
stream 0's second packet (duration 5/24 s), whereas tracking the state per
audio stream, as the claim states, would give 960/48000 = 1/50 s. -/
theorem audio_duration_state_is_shared :
    runAudioDurations 48000 ⟨0, 0⟩ [(0, 0), (1, 10000), (0, 960)]
      = [0, 5 / 24, 5 / 24]
    ∧ runAudioDurationsPerStream 48000 (fun _ => ⟨0, 0⟩)
        [(0, 0), (1, 10000), (0, 960)]
      = [0, 5 / 24, 1 / 50]
    ∧ (5 / 24 : ℚ) ≠ 1 / 50 := by
  refine ⟨?_, ?_, by norm_num⟩
  · norm_num [runAudioDurations, defineAudioDuration]
  · norm_num [runAudioDurationsPerStream, defineAudioDuration]

/-- C6 amended: the duration state lives on the streamer and is shared by all
audio streams (`runAudioDurations` never consults the stream index); with that
shared state the update rule is as claimed: when the packet's DTS exceeds the
stored `lastAudioFrameDTS` the frame size is recomputed as their difference
and the dispatched duration is `frame size / sample rate` seconds, otherwise
the previous frame size is reused; `lastAudioFrameDTS` is always updated to
the packet's DTS. -/
theorem defineAudioDuration_update_rule (st : StreamerTicker) (sr dts : Int) :
    (dts - st.lastAudioFrameDTS > 0 →
      defineAudioDuration st .audio sr dts
        = (⟨dts, dts - st.lastAudioFrameDTS⟩,
           ((dts - st.lastAudioFrameDTS : Int) : ℚ) / (sr : ℚ)))
    ∧ (¬ dts - st.lastAudioFrameDTS > 0 →
      defineAudioDuration st .audio sr dts
        = (⟨dts, st.currentAudioFrameSize⟩,
           (st.currentAudioFrameSize : ℚ) / (sr : ℚ)))
    ∧ (∀ (st' : StreamerTicker) (trace : List (Nat × Int)) (f : Nat → Nat),
        runAudioDurations sr st' (trace.map (fun e => (f e.1, e.2)))
          = runAudioDurations sr st' trace) := by
  refine ⟨?_, ?_, ?_⟩
  · intro h
    simp [defineAudioDuration, h]
  · intro h
    simp [defineAudioDuration, h]
  · intro st' trace f
    induction trace generalizing st' with
    | nil => rfl
    | cons e rest ih => simp [runAudioDurations, ih]

/-- Witness for C6 at a concrete increasing-DTS packet. -/
theorem defineAudioDuration_update_rule_witness :
    defineAudioDuration ⟨0, 0⟩ .audio 48000 960
      = (⟨960, 960⟩, ((960 - 0 : Int) : ℚ) / ((48000 : Int) : ℚ)) :=
  (defineAudioDuration_update_rule ⟨0, 0⟩ 48000 960).1 (by decide)

/-- Helper: `av_rescale_rnd` is monotone non-decreasing in its first argument
for a non-negative factor and positive divisor. -/
theorem avRescaleRnd_mono {a a' b c : Int} (hb : 0 ≤ b) (hc : 0 < c)
    (h : a ≤ a') : avRescaleRnd a b c ≤ avRescaleRnd a' b c := by
  unfold avRescaleRnd
  have hhalf0 : 0 ≤ c / 2 := by omega
  by_cases ha : a < 0 <;> by_cases ha' : a' < 0
  · rw [if_pos ha, if_pos ha']
    apply neg_le_neg
    apply Int.ediv_le_ediv hc
    have hmul : -a' * b ≤ -a * b :=
      mul_le_mul_of_nonneg_right (by omega) hb
    omega
  · rw [if_pos ha, if_neg ha']
    have h1 : 0 ≤ ((-a) * b + c / 2) / c := by
      apply Int.ediv_nonneg _ hc.le
      have : 0 ≤ (-a) * b := mul_nonneg (by omega) hb
      omega
    have h2 : 0 ≤ (a' * b + c / 2) / c := by
      apply Int.ediv_nonneg _ hc.le
      have : 0 ≤ a' * b := mul_nonneg (by omega) hb
      omega
    omega
  · exact absurd (lt_of_le_of_lt h ha') ha
  · rw [if_neg ha, if_neg ha']
    apply Int.ediv_le_ediv hc
    have hmul : a * b ≤ a' * b := mul_le_mul_of_nonneg_right h hb
    omega

/-- Helper: `av_rescale_q` between positive timebases is monotone
non-decreasing. -/
theorem avRescaleQ_mono {a a' : Int} {bq cq : AVRational}
    (hbn : 0 < bq.num) (hbd : 0 < bq.den) (hcn : 0 < cq.num)
    (hcd : 0 < cq.den) (h : a ≤ a') : avRescaleQ a bq cq ≤ avRescaleQ a' bq cq :=
  avRescaleRnd_mono (mul_nonneg hbn.le hcd.le) (mul_pos hcn hbd) h

/-- Helper: on a video bypass stream the dispatched DTS sequence is exactly
the packet DTS sequence pushed through the bypass-path rescale. -/
theorem runBypassVideo_dts (recipe : DonutRecipe) (s : StreamCtx)
    (hv : recipe.video.action = .bypass) (hm : s.decMediaType = .video)
    (pkts : List Pkt) :
    (runBypassVideo recipe s pkts).map FrameEvent.dts
      = pkts.map (fun p => if p.dts = avNoptsValue then p.dts
          else avRescaleQ p.dts s.inputStream.timeBase s.decTimeBase) := by
  induction pkts with
  | nil => rfl
  | cons p rest ih =>
    simp only [runBypassVideo, processPacketBypass, hv, hm, List.map_cons]
    simp only [true_and, and_self, ite_true, if_pos]
    simp [rescaleTsPkt, FrameEvent.dts, ih]

/-- C5 counterexample: nothing enforces DTS monotonicity — the dispatched DTS
is just the rescaled input DTS, so an input whose DTS goes 100 then 50 on the
same video bypass stream dispatches DTS 100 then 50, violating the claimed
invariant. -/
theorem bypass_dts_not_monotone :
    (runBypassVideo canonicalRecipe scIdentity [pktd 100, pktd 50]).map
        FrameEvent.dts = [100, 50]
    ∧ ¬ List.Chain' (fun a b : Int => a ≤ b) [(100 : Int), 50] := by
  constructor
  · rw [runBypassVideo_dts canonicalRecipe scIdentity rfl rfl]
    decide
  · intro hch
    rw [List.chain'_cons] at hch
    have := hch.1
    omega

/-- C5 amended: the dispatched DTS sequence on a video bypass stream is the
`av_rescale_q` image of the source DTS sequence, so it is monotone
non-decreasing whenever the source DTS sequence is (timebases positive, no
`AV_NOPTS_VALUE` timestamps); the same holds for the encoder-output dispatch
rescale of `encodeFrame`.  For non-monotone input the dispatched sequence is
not monotone either (see the counterexample). -/
theorem bypass_dispatch_dts_monotone (recipe : DonutRecipe) (s : StreamCtx)
    (hv : recipe.video.action = .bypass) (hm : s.decMediaType = .video)
    (hin : 0 < s.inputStream.timeBase.num) (hid : 0 < s.inputStream.timeBase.den)
    (hdn : 0 < s.decTimeBase.num) (hdd : 0 < s.decTimeBase.den)
    (pkts : List Pkt) (hnopts : ∀ p ∈ pkts, p.dts ≠ avNoptsValue)
    (hmono : List.Chain' (fun p q : Pkt => p.dts ≤ q.dts) pkts) :
    List.Chain' (fun a b : Int => a ≤ b)
      ((runBypassVideo recipe s pkts).map FrameEvent.dts)
    ∧ (∀ (encTB : AVRational), 0 < encTB.num → 0 < encTB.den →
        ∀ ds : List Int, (∀ d ∈ ds, d ≠ avNoptsValue) →
          List.Chain' (fun a b : Int => a ≤ b) ds →
          List.Chain' (fun a b : Int => a ≤ b)
            (ds.map (encodeDispatchDts s.inputStream.timeBase encTB))) := by
  constructor
  · rw [runBypassVideo_dts recipe s hv hm,
      List.map_congr_left (fun p hp => if_neg (hnopts p hp))]
    exact List.chain'_map_of_chain' _
      (fun a b hab => avRescaleQ_mono hin hid hdn hdd hab) hmono
  · intro encTB hen hed ds hds hchain
    have hfun : ∀ d ∈ ds, encodeDispatchDts s.inputStream.timeBase encTB d
        = avRescaleQ d s.inputStream.timeBase encTB := by
      intro d hd
      simp only [encodeDispatchDts, rescaleTsPkt]
      rw [if_neg (hds d hd)]
    rw [List.map_congr_left hfun]
    exact List.chain'_map_of_chain' _
      (fun a b hab => avRescaleQ_mono hin hid hen hed hab) hchain

/-- Witness for C5 at a concrete monotone input. -/
theorem bypass_dispatch_dts_monotone_witness :
    List.Chain' (fun a b : Int => a ≤ b)
      ((runBypassVideo canonicalRecipe scIdentity [pktd 10, pktd 20]).map
        FrameEvent.dts) :=
  (bypass_dispatch_dts_monotone canonicalRecipe scIdentity rfl rfl
    (by decide) (by decide) (by decide) (by decide) [pktd 10, pktd 20]
    (by decide)
    (by rw [List.chain'_cons]
        exact ⟨by norm_num [pktd], List.chain'_singleton _⟩)).1

/-- Helper: a list of dispatched frames contains no `OnError` event. -/
theorem errorCb_not_mem_frames (l : List FrameEvent) (e : Err) :
    OutEvent.errorCb e ∉ l.map OutEvent.frame := by
  simp [List.mem_map]

/-- Helper: a list of dispatched frames counts zero `OnError` events. -/
theorem errorCbCount_frames (l : List FrameEvent) :
    errorCbCount (l.map OutEvent.frame) = 0 := by
  rw [errorCbCount, List.countP_eq_zero]
  intro a ha
  rcases List.mem_map.mp ha with ⟨f, _, rfl⟩
  simp

/-- Helper: the events `applyBitStreamFilter` produces are all dispatched
frames — any error its inner `processPacket` calls return is discarded. -/
theorem applyBSF_no_errorCb (env : LoopEnv) (i : Nat) (p : Pkt) (e : Err) :
    OutEvent.errorCb e ∉ (applyBitStreamFilterModel env i p).1 := by
  unfold applyBitStreamFilterModel
  cases env.bsfSend i p with
  | some e' => simp
  | none =>
    intro hmem
    rcases List.mem_flatten.mp hmem with ⟨l, hl, hal⟩
    rcases List.mem_map.mp hl with ⟨q, _, rfl⟩
    exact errorCb_not_mem_frames _ e hal

/-- Helper: `applyBitStreamFilter`'s event list counts zero `OnError`
events. -/
theorem applyBSF_errorCbCount (env : LoopEnv) (i : Nat) (p : Pkt) :
    errorCbCount (applyBitStreamFilterModel env i p).1 = 0 := by
  rw [errorCbCount, List.countP_eq_zero]
  intro a ha
  cases a with
  | frame f => simp
  | errorCb e => exact absurd ha (applyBSF_no_errorCb env i p e)

/-- Helper: appending a non-empty tail keeps its last element. -/
theorem getLast_append_right {α : Type} (l1 l2 : List α) (h : l2 ≠ []) :
    (l1 ++ l2).getLast? = l2.getLast? := by
  induction l1 with
  | nil => rfl
  | cons a t ih =>
    rw [List.cons_append, List.getLast?_cons, ih]
    cases l2 with
    | nil => exact absurd rfl h
    | cons b t2 => simp [List.getLast?_cons]

/-- C2 counterexample: on a stream with a bit-stream filter, a
`processPacket` failure on a pulled packet (here a decoder send failure) is
silently discarded — `OnError` is never invoked and the loop does not
terminate: the next iteration still dispatches a frame for another stream. -/
theorem bsf_processing_error_not_surfaced :
    runLoop envDropsBsfError [.read (.ok (pktOf 0)), .read (.ok (pktOf 1)),
        .read (.fail .eofAV)]
      = [.frame (.video [] 7 7 0)]
    ∧ (envDropsBsfError.procPacket 0 (pktOf 0)).2 = some .sendPacketFailed
    ∧ errorCbCount [.frame (.video [] 7 7 0)] = 0 := by
  refine ⟨rfl, rfl, rfl⟩

/-- C2 amended: the run loop invokes `OnError` at most once, and whenever it
does, that invocation is the last event of the session — every surfaced
transport or processing error terminates the loop.  However, errors from
`processPacket` on packets pulled out of a bit-stream filter are not
surfaced: `applyBitStreamFilter` discards them (see the counterexample), so
only read errors, bit-stream-filter send/receive errors, and direct-path
`processPacket` errors reach `OnError`. -/
theorem runLoop_onError_at_most_once (env : LoopEnv) (ins : List IterInput) :
    errorCbCount (runLoop env ins) ≤ 1
    ∧ ∀ e, OutEvent.errorCb e ∈ runLoop env ins →
        (runLoop env ins).getLast? = some (.errorCb e) := by
  induction ins with
  | nil => exact ⟨by simp [runLoop, errorCbCount], by simp [runLoop]⟩
  | cons i rest ih =>
    cases i with
    | ctxDone cause =>
      by_cases hc : cause = .contextCanceled
      · constructor
        · simp [runLoop, hc, errorCbCount]
        · simp [runLoop, hc]
      · constructor
        · simp [runLoop, hc, errorCbCount]
        · intro e he
          simp only [runLoop, if_neg hc] at he ⊢
          have h' := List.mem_singleton.mp he
          injection h' with h''
          subst h''
          rfl
    | read r =>
      cases r with
      | fail e0 =>
        by_cases h1 : e0 = .eofAV ∨ e0 = .eofStdlib
        · constructor
          · simp [runLoop, h1, errorCbCount]
          · simp [runLoop, h1]
        · by_cases h2 : e0 = .contextCanceled ∨ e0 = .closedPipe
          · constructor
            · simp [runLoop, h1, h2, errorCbCount]
            · simp [runLoop, h1, h2]
          · constructor
            · simp [runLoop, h1, h2, errorCbCount]
            · intro e he
              simp only [runLoop, if_neg h1, if_neg h2] at he ⊢
              have h' := List.mem_singleton.mp he
              injection h' with h''
              subst h''
              rfl
      | ok pkt =>
        cases hst : env.streams pkt.streamIndex with
        | none =>
          have hr : runLoop env (.read (.ok pkt) :: rest) = runLoop env rest := by
            simp [runLoop, hst]
          rw [hr]
          exact ih
        | some hasBsf =>
          cases hasBsf with
          | true =>
            rcases happ : applyBitStreamFilterModel env pkt.streamIndex pkt
              with ⟨evs, oe⟩
            have hcnt : errorCbCount evs = 0 := by
              have := applyBSF_errorCbCount env pkt.streamIndex pkt
              rwa [happ] at this
            have hnomem : ∀ e, OutEvent.errorCb e ∉ evs := by
              intro e
              have := applyBSF_no_errorCb env pkt.streamIndex pkt e
              rwa [happ] at this
            cases oe with
            | some e0 =>
              have hr : runLoop env (.read (.ok pkt) :: rest)
                  = evs ++ [.errorCb e0] := by
                simp [runLoop, hst, happ]
              rw [hr]
              constructor
              · rw [errorCbCount, List.countP_append]
                rw [errorCbCount] at hcnt
                simp [hcnt, errorCbCount]
              · intro e he
                rcases List.mem_append.mp he with h | h
                · exact absurd h (hnomem e)
                · have h' := List.mem_singleton.mp h
                  injection h' with h''
                  subst h''
                  exact List.getLast?_concat _
            | none =>
              have hr : runLoop env (.read (.ok pkt) :: rest)
                  = evs ++ runLoop env rest := by
                simp [runLoop, hst, happ]
              rw [hr]
              constructor
              · rw [errorCbCount, List.countP_append]
                rw [errorCbCount] at hcnt
                rw [hcnt, Nat.zero_add]
                exact ih.1
              · intro e he
                rcases List.mem_append.mp he with h | h
                · exact absurd h (hnomem e)
                · rw [getLast_append_right _ _ (List.ne_nil_of_mem h)]
                  exact ih.2 e h
          | false =>
            rcases hproc : env.procPacket pkt.streamIndex pkt with ⟨evs, oe⟩
            cases oe with
            | some e0 =>
              have hr : runLoop env (.read (.ok pkt) :: rest)
                  = evs.map OutEvent.frame ++ [.errorCb e0] := by
                simp [runLoop, hst, hproc]
              rw [hr]
              constructor
              · rw [errorCbCount, List.countP_append]
                have := errorCbCount_frames evs
                rw [errorCbCount] at this
                simp [this, errorCbCount]
              · intro e he
                rcases List.mem_append.mp he with h | h
                · exact absurd h (errorCb_not_mem_frames evs e)
                · have h' := List.mem_singleton.mp h
                  injection h' with h''
                  subst h''
                  exact List.getLast?_concat _
            | none =>
              have hr : runLoop env (.read (.ok pkt) :: rest)
                  = evs.map OutEvent.frame ++ runLoop env rest := by
                simp [runLoop, hst, hproc]
              rw [hr]
              constructor
              · rw [errorCbCount, List.countP_append]
                have := errorCbCount_frames evs
                rw [errorCbCount] at this
                rw [this, Nat.zero_add]
                exact ih.1
              · intro e he
                rcases List.mem_append.mp he with h | h
                · exact absurd h (errorCb_not_mem_frames evs e)
                · rw [getLast_append_right _ _ (List.ne_nil_of_mem h)]
                  exact ih.2 e h

/-- Witness for C2 at a direct-path encode failure: the single `OnError` is
the last event. -/
theorem runLoop_onError_at_most_once_witness :
    (runLoop envDirectError [.read (.ok (pktOf 0))]).getLast?
      = some (.errorCb .encodeFailed) :=
  (runLoop_onError_at_most_once envDirectError
    [.read (.ok (pktOf 0))]).2 .encodeFailed (by decide)

end Donut
